import Mathlib

/-!
# DesktopFix: verification of the pattern-repaint core

A shallow embedding of `desktopfix.c`: the screen-info cache
(`EnsureScreenInfo`), the two pattern-tile renderers (`RenderPatternInRgn`,
`RenderPatternInRect`), the window-overlap guard (`IsRectInAnyWindowStruc`)
and the two tail patches (`PatchedFillCRgn`, `PatchedEraseRect`).

Machine state that the C code reads through pointers is made explicit:
relocatable handles become `Option (Option _)` (NULL handle / empty handle /
valid handle), Memory Manager lock state becomes an explicit record threaded
through each renderer, and framebuffer stores are recorded as a list of
`(x, y, pixel)` writes instead of raw address arithmetic.
-/

namespace DesktopFix

/-- A Memory Manager handle: `none` is a NULL handle, `some none` an empty
handle (NULL master pointer), `some (some a)` a valid handle to block `a`. -/
abbrev Handle (α : Type) : Type := Option (Option α)

/-- QuickDraw `Rect` (top, left, bottom, right shorts). -/
structure Rect where
  top : Int
  left : Int
  bottom : Int
  right : Int
deriving DecidableEq, Repr

/-- QuickDraw `RGBColor`: three 16-bit wide-range channels. -/
structure RGBColor where
  red : Nat
  green : Nat
  blue : Nat
deriving DecidableEq, Repr

/-- QuickDraw `ColorSpec` (only its `rgb` field is read by the code). -/
structure ColorSpec where
  rgb : RGBColor
deriving DecidableEq, Repr

/-- A color table: `ctTable` gives the `ColorSpec` at each index.  The C code
indexes `(**ctab).ctTable[pixVal]` without a bound check, so the table is a
total function on indices. -/
structure CTabRec where
  ctTable : Nat → ColorSpec

/-- QuickDraw `PixMap`, with the fields the code reads.  `rowBytes` is kept as
the raw 16-bit bit pattern (its top bits are flags, masked off by the code). -/
structure PixMapRec where
  baseAddr : Int
  rowBytes : Nat
  bounds : Rect
  pixelSize : Int
  pmTable : Handle CTabRec

/-- QuickDraw `PixPat` (type, pixel map, raw tile bytes by offset). -/
structure PixPatRec where
  patType : Int
  patMap : Handle PixMapRec
  patData : Handle (Nat → Nat)

/-- A QuickDraw region, abstracted to what the code consumes: its bounding box
and the `PtInRgn` / `RectInRgn` membership oracles. -/
structure RegionRec where
  rgnBBox : Rect
  ptIn : Int → Int → Bool
  rectIn : Rect → Bool

/-- Memory Manager state of one relocatable block, as captured and restored by
`HGetState` / `HSetState`. -/
structure HState where
  locked : Bool
  purgeable : Bool
deriving DecidableEq, Repr

/-- `HLock`: sets the lock bit, leaves the purgeable bit. -/
def hLock (s : HState) : HState := { s with locked := true }

/-- The lock/purge states of the three resources a renderer touches. -/
structure LockStates where
  patMap : HState
  patData : HState
  ctab : HState
deriving DecidableEq, Repr

/-- One 32-bit framebuffer store: surface coordinate and pixel value. -/
structure Write where
  x : Int
  y : Int
  val : Nat
deriving DecidableEq, Repr

/-- The cached screen globals `gScreenBase`, `gScreenRowBytes`,
`gScreenWidth`, `gScreenHeight`, `gScreenReady`. -/
structure ScreenState where
  base : Int
  rowBytes : Nat
  width : Int
  height : Int
  ready : Bool
deriving DecidableEq, Repr

/-- A `GDevice` record (only `gdPMap` is read). -/
structure GDRec where
  gdPMap : Handle PixMapRec

/-- The integer range `[lo, hi)` iterated by a C `for (i = lo; i < hi; i++)`
loop. -/
def intRange (lo hi : Int) : List Int :=
  (List.range (hi - lo).toNat).map (fun (i : Nat) => lo + (i : Int))

/-- The 32bpp pixel packing of `RenderPatternInRgn`/`RenderPatternInRect`:
`((red >> 8) << 16) | ((green >> 8) << 8) | (blue >> 8)`. -/
def packColor (c : RGBColor) : Nat :=
  ((c.red >>> 8) <<< 16) ||| ((c.green >>> 8) <<< 8) ||| (c.blue >>> 8)

/-- `EnsureScreenInfo`: memoizing query of the main device's pixel map.
Returns the C function's result together with the updated globals. -/
def ensureScreenInfo (mainDev : Handle GDRec) (st : ScreenState) :
    Bool × ScreenState :=
  if st.ready then (true, st)
  else
    match mainDev with
    | none => (false, st)
    | some none => (false, st)
    | some (some gd) =>
      match gd.gdPMap with
      | none => (false, st)
      | some none => (false, st)
      | some (some pm) =>
        if pm.pixelSize ≠ 32 then (false, st)
        else
          (true,
           { base := pm.baseAddr
             rowBytes := pm.rowBytes &&& 0x3FFF
             width := pm.bounds.right - pm.bounds.left
             height := pm.bounds.bottom - pm.bounds.top
             ready := true })

/-- `RenderPatternInRgn`: render the pattern tile into the framebuffer inside
a region, clipped to the screen, using `PtInRgn` per pixel.  Returns the list
of framebuffer writes and the final lock states. -/
def renderPatternInRgn (scr : ScreenState) (rgn : RegionRec)
    (pp : Handle PixPatRec) (ls : LockStates) : List Write × LockStates :=
  match pp with
  | none => ([], ls)
  | some none => ([], ls)
  | some (some p) =>
    if p.patType ≠ 1 then ([], ls)
    else
      match p.patMap, p.patData with
      | some (some patMap), some (some patData) =>
        let patMapState := ls.patMap
        let ls1 : LockStates := { ls with patMap := hLock ls.patMap }
        let patDataState := ls1.patData
        let ls2 : LockStates := { ls1 with patData := hLock ls1.patData }
        let tileW := patMap.bounds.right - patMap.bounds.left
        let tileH := patMap.bounds.bottom - patMap.bounds.top
        let tileRowBytes : Nat := patMap.rowBytes &&& 0x3FFF
        let tileDepth := patMap.pixelSize
        if tileW ≤ 0 ∨ tileH ≤ 0 ∨ tileDepth ≠ 8 then
          ([], { ls2 with patMap := patMapState, patData := patDataState })
        else
          match patMap.pmTable with
          | none => ([], { ls2 with patMap := patMapState, patData := patDataState })
          | some none => ([], { ls2 with patMap := patMapState, patData := patDataState })
          | some (some ctab) =>
            let ctabState := ls2.ctab
            let ls3 : LockStates := { ls2 with ctab := hLock ls2.ctab }
            let bbox := rgn.rgnBBox
            let left := if bbox.left < 0 then 0 else bbox.left
            let top := if bbox.top < 0 then 0 else bbox.top
            let right := if scr.width < bbox.right then scr.width else bbox.right
            let bottom := if scr.height < bbox.bottom then scr.height else bbox.bottom
            let writes :=
              if left < right ∧ top < bottom then
                (intRange top bottom).flatMap (fun y =>
                  let ty0 := Int.tmod y tileH
                  let ty := if ty0 < 0 then ty0 + tileH else ty0
                  (intRange left right).filterMap (fun x =>
                    if rgn.ptIn x y then
                      let tx0 := Int.tmod x tileW
                      let tx := if tx0 < 0 then tx0 + tileW else tx0
                      let pixVal := patData (ty * (tileRowBytes : Int) + tx).toNat
                      some { x := x, y := y, val := packColor (ctab.ctTable pixVal).rgb }
                    else none))
              else []
            (writes,
             { ls3 with ctab := ctabState, patMap := patMapState, patData := patDataState })
      | _, _ => ([], ls)

/-- `RenderPatternInRect`: identical validation, locking and tiling math, but
every pixel of the clipped rectangle is written (no `PtInRgn` test). -/
def renderPatternInRect (scr : ScreenState) (r : Rect)
    (pp : Handle PixPatRec) (ls : LockStates) : List Write × LockStates :=
  match pp with
  | none => ([], ls)
  | some none => ([], ls)
  | some (some p) =>
    if p.patType ≠ 1 then ([], ls)
    else
      match p.patMap, p.patData with
      | some (some patMap), some (some patData) =>
        let patMapState := ls.patMap
        let ls1 : LockStates := { ls with patMap := hLock ls.patMap }
        let patDataState := ls1.patData
        let ls2 : LockStates := { ls1 with patData := hLock ls1.patData }
        let tileW := patMap.bounds.right - patMap.bounds.left
        let tileH := patMap.bounds.bottom - patMap.bounds.top
        let tileRowBytes : Nat := patMap.rowBytes &&& 0x3FFF
        let tileDepth := patMap.pixelSize
        if tileW ≤ 0 ∨ tileH ≤ 0 ∨ tileDepth ≠ 8 then
          ([], { ls2 with patMap := patMapState, patData := patDataState })
        else
          match patMap.pmTable with
          | none => ([], { ls2 with patMap := patMapState, patData := patDataState })
          | some none => ([], { ls2 with patMap := patMapState, patData := patDataState })
          | some (some ctab) =>
            let ctabState := ls2.ctab
            let ls3 : LockStates := { ls2 with ctab := hLock ls2.ctab }
            let left := if r.left < 0 then 0 else r.left
            let top := if r.top < 0 then 0 else r.top
            let right := if scr.width < r.right then scr.width else r.right
            let bottom := if scr.height < r.bottom then scr.height else r.bottom
            let writes :=
              if left < right ∧ top < bottom then
                (intRange top bottom).flatMap (fun y =>
                  let ty0 := Int.tmod y tileH
                  let ty := if ty0 < 0 then ty0 + tileH else ty0
                  (intRange left right).map (fun x =>
                    let tx0 := Int.tmod x tileW
                    let tx := if tx0 < 0 then tx0 + tileW else tx0
                    let pixVal := patData (ty * (tileRowBytes : Int) + tx).toNat
                    { x := x, y := y, val := packColor (ctab.ctTable pixVal).rgb }))
              else []
            (writes,
             { ls3 with ctab := ctabState, patMap := patMapState, patData := patDataState })
      | _, _ => ([], ls)

/-- One entry of the low-memory window list (only `strucRgn` is read;
list order is the `nextWindow` chain). -/
structure WindowRec where
  strucRgn : Handle RegionRec

/-- `IsRectInAnyWindowStruc`: does the rect hit any window's structure region,
excluding the last window list entry (the desktop window)? -/
def isRectInAnyWindowStruc (r : Rect) : List WindowRec → Bool
  | [] => false
  | [_] => false
  | w :: rest =>
    (match w.strucRgn with
     | some (some rg) => rg.rectIn r
     | _ => false) || isRectInAnyWindowStruc r rest

/-- The host state a patched call reads: main device, cached screen globals,
the current port and `WMgrCPort` (as pointer tokens, `0` = NULL), the
window-manager port's background pattern, `MBarHeight`, and the window list. -/
structure HostEnv where
  dev : Handle GDRec
  screen : ScreenState
  currentPort : Int
  wmPortPtr : Int
  wmBkPixPat : Handle PixPatRec
  mbarHeight : Int
  windows : List WindowRec

/-- Observable steps of a patched trap call. -/
inductive PEvent where
  | callOriginal
  | guardEval
  | renderRgn
  | renderRect
deriving DecidableEq, Repr

/-- Result of one patched trap call: event trace, updated screen cache,
framebuffer writes, final lock states, and the recursion flag on return. -/
structure PatchResult where
  trace : List PEvent
  screen : ScreenState
  writes : List Write
  locks : LockStates
  inPatchAfter : Bool

/-- `IsWMgrDraw`: the current port equals the `WMgrCPort` low-memory global. -/
def isWMgrDraw (env : HostEnv) : Bool := env.currentPort == env.wmPortPtr

/-- `PatchedFillCRgn`: invoke the original, then repaint small desktop
regions drawn through `WMgrCPort`.  `inPatch` is the recursion flag on
entry. -/
def patchedFillCRgn (env : HostEnv) (inPatch : Bool) (rgn : Handle RegionRec)
    (pp : Handle PixPatRec) (ls : LockStates) : PatchResult :=
  if inPatch then
    { trace := [PEvent.callOriginal], screen := env.screen, writes := []
      locks := ls, inPatchAfter := inPatch }
  else
    let es := ensureScreenInfo env.dev env.screen
    match rgn with
    | some (some rg) =>
      if es.1 = true ∧ isWMgrDraw env = true then
        let bbox := rg.rgnBBox
        if 4 ≤ bbox.right - bbox.left ∧ 4 ≤ bbox.bottom - bbox.top ∧
            bbox.right - bbox.left ≤ 250 ∧ bbox.bottom - bbox.top ≤ 250 ∧
            env.mbarHeight ≤ bbox.top ∧
            isRectInAnyWindowStruc bbox env.windows = false then
          let rr := renderPatternInRgn es.2 rg pp ls
          { trace := [PEvent.callOriginal, PEvent.guardEval, PEvent.renderRgn]
            screen := es.2, writes := rr.1, locks := rr.2, inPatchAfter := false }
        else
          { trace := [PEvent.callOriginal, PEvent.guardEval], screen := es.2
            writes := [], locks := ls, inPatchAfter := false }
      else
        { trace := [PEvent.callOriginal, PEvent.guardEval], screen := es.2
          writes := [], locks := ls, inPatchAfter := false }
    | _ =>
      { trace := [PEvent.callOriginal, PEvent.guardEval], screen := es.2
        writes := [], locks := ls, inPatchAfter := false }

/-- `PatchedEraseRect`: invoke the original, then repaint small desktop rects
drawn through `WMgrCPort` with the port's background pattern. -/
def patchedEraseRect (env : HostEnv) (inPatch : Bool) (r : Option Rect)
    (ls : LockStates) : PatchResult :=
  if inPatch then
    { trace := [PEvent.callOriginal], screen := env.screen, writes := []
      locks := ls, inPatchAfter := inPatch }
  else
    let es := ensureScreenInfo env.dev env.screen
    match r with
    | some rect =>
      if es.1 = true ∧ isWMgrDraw env = true then
        if 2 ≤ rect.right - rect.left ∧ 2 ≤ rect.bottom - rect.top ∧
            rect.right - rect.left ≤ 250 ∧ rect.bottom - rect.top ≤ 250 ∧
            env.mbarHeight ≤ rect.top ∧
            isRectInAnyWindowStruc rect env.windows = false then
          if env.wmPortPtr ≠ 0 ∧ env.wmBkPixPat.isSome = true then
            let rr := renderPatternInRect es.2 rect env.wmBkPixPat ls
            { trace := [PEvent.callOriginal, PEvent.guardEval, PEvent.renderRect]
              screen := es.2, writes := rr.1, locks := rr.2, inPatchAfter := false }
          else
            { trace := [PEvent.callOriginal, PEvent.guardEval], screen := es.2
              writes := [], locks := ls, inPatchAfter := false }
        else
          { trace := [PEvent.callOriginal, PEvent.guardEval], screen := es.2
            writes := [], locks := ls, inPatchAfter := false }
      else
        { trace := [PEvent.callOriginal, PEvent.guardEval], screen := es.2
          writes := [], locks := ls, inPatchAfter := false }
    | none =>
      { trace := [PEvent.callOriginal, PEvent.guardEval], screen := es.2
        writes := [], locks := ls, inPatchAfter := false }

/-! ### General lemmas about the embedding -/

theorem mem_intRange {lo hi x : Int} : x ∈ intRange lo hi ↔ lo ≤ x ∧ x < hi := by
  constructor
  · intro hx
    obtain ⟨i, hmem, heq⟩ := List.mem_map.mp hx
    rw [List.mem_range] at hmem
    omega
  · intro h
    exact List.mem_map.mpr
      ⟨(x - lo).toNat, List.mem_range.mpr (by omega), by omega⟩

/-- The C idiom `t = a % m; if (t < 0) t += m;` (truncated remainder plus
fix-up) computes the mathematical (Euclidean) modulo when `0 < m`. -/
theorem tmod_fixup_eq_emod (a m : Int) (hm : 0 < m) :
    (if Int.tmod a m < 0 then Int.tmod a m + m else Int.tmod a m) = a % m := by
  have hd : (Int.tmod a m) % m = a % m := by
    rw [Int.tmod_def]
    have h1 : a - m * a.tdiv m = a + (-(a.tdiv m)) * m := by ring
    rw [h1, Int.add_mul_emod_self]
  have hub : Int.tmod a m < m := Int.tmod_lt_of_pos a hm
  have hlb : -m < Int.tmod a m := by
    rcases Int.le_total 0 a with ha | ha
    · have := Int.tmod_nonneg m ha
      omega
    · have h2 : Int.tmod (-a) m < m := Int.tmod_lt_of_pos (-a) hm
      have h3 : Int.tmod (-a) m = -(Int.tmod a m) := by
        rw [Int.tmod_def, Int.tmod_def, Int.neg_tdiv]
        ring
      omega
  by_cases hneg : Int.tmod a m < 0
  · rw [if_pos hneg]
    have h4 : (Int.tmod a m + m) % m = (Int.tmod a m) % m := by
      have h5 : Int.tmod a m + m = Int.tmod a m + 1 * m := by ring
      rw [h5, Int.add_mul_emod_self]
    have h6 : 0 ≤ Int.tmod a m + m := by omega
    have h7 : Int.tmod a m + m < m := by omega
    rw [← Int.emod_eq_of_lt h6 h7, h4, hd]
  · rw [if_neg hneg]
    push_neg at hneg
    rw [← Int.emod_eq_of_lt hneg hub, hd]

theorem filter_flatMap_distrib {α β : Type} (l : List α) (g : α → List β)
    (p : β → Bool) :
    (l.flatMap g).filter p = l.flatMap (fun a => (g a).filter p) := by
  induction l with
  | nil => simp
  | cons a t ih => simp [List.flatMap_cons, List.filter_append, ih]

theorem filter_map_eq_filterMap {α β : Type} (f : α → β) (p : β → Bool)
    (l : List α) :
    (l.map f).filter p =
      l.filterMap (fun a => if p (f a) = true then some (f a) else none) := by
  induction l with
  | nil => simp
  | cons a t ih =>
    by_cases h : p (f a) = true <;> simp [h, ih]

theorem if_lt_zero_eq_max (a : Int) : (if a < 0 then 0 else a) = max a 0 := by
  split <;> omega

theorem if_lt_eq_min (w b : Int) : (if w < b then w else b) = min w b := by
  split <;> omega

/-- Characterization of the writes of `renderPatternInRect` on a well-formed
type-1, 8-bit pattern: exactly the pixels of the rect clipped to the screen,
colored by the palette entry selected by toroidal tiling. -/
theorem mem_renderRect_iff (scr : ScreenState) (r : Rect) (ls : LockStates)
    (base : Int) (rb : Nat) (bnd : Rect) (c : CTabRec) (d : Nat → Nat)
    (hW : 0 < bnd.right - bnd.left) (hH : 0 < bnd.bottom - bnd.top)
    (x y : Int) (v : Nat) :
    (⟨x, y, v⟩ : Write) ∈ (renderPatternInRect scr r
        (some (some ⟨1, some (some ⟨base, rb, bnd, 8, some (some c)⟩), some (some d)⟩)) ls).1 ↔
      (r.left ≤ x ∧ x < r.right ∧ 0 ≤ x ∧ x < scr.width ∧
       r.top ≤ y ∧ y < r.bottom ∧ 0 ≤ y ∧ y < scr.height ∧
       v = packColor (c.ctTable (d ((y % (bnd.bottom - bnd.top)) * ((rb &&& 0x3FFF : Nat) : Int)
             + x % (bnd.right - bnd.left)).toNat)).rgb) := by
  unfold renderPatternInRect
  dsimp only
  rw [if_neg (by norm_num), if_neg (by omega)]
  simp only [tmod_fixup_eq_emod _ _ hW, tmod_fixup_eq_emod _ _ hH,
    if_lt_zero_eq_max, if_lt_eq_min]
  split
  case isTrue hclip =>
    constructor
    · intro hmem
      obtain ⟨y', hy', hmem2⟩ := List.mem_flatMap.mp hmem
      obtain ⟨x', hx', heq⟩ := List.mem_map.mp hmem2
      rw [mem_intRange] at hy' hx'
      injection heq with h1 h2 h3
      subst h1
      subst h2
      subst h3
      refine ⟨by omega, by omega, by omega, by omega, by omega, by omega, by omega, by omega, rfl⟩
    · rintro ⟨hx1, hx2, hx3, hx4, hy1, hy2, hy3, hy4, hv⟩
      refine List.mem_flatMap.mpr ⟨y, mem_intRange.mpr ⟨by omega, by omega⟩, ?_⟩
      refine List.mem_map.mpr ⟨x, mem_intRange.mpr ⟨by omega, by omega⟩, ?_⟩
      rw [hv]
  case isFalse hclip =>
    simp only [List.not_mem_nil, false_iff]
    rintro ⟨hx1, hx2, hx3, hx4, hy1, hy2, hy3, hy4, hv⟩
    omega

theorem renderRgn_eq_filter (scr : ScreenState) (rgn : RegionRec)
    (pp : Handle PixPatRec) (ls : LockStates) :
    (renderPatternInRgn scr rgn pp ls).1 =
      ((renderPatternInRect scr rgn.rgnBBox pp ls).1).filter
        (fun w => rgn.ptIn w.x w.y) := by
  rcases pp with _ | (_ | p)
  · rfl
  · rfl
  unfold renderPatternInRgn renderPatternInRect
  dsimp only
  by_cases hT : p.patType ≠ 1
  · simp only [if_pos hT, List.filter_nil]
  simp only [if_neg hT]
  rcases p.patMap with _ | (_ | m) <;> rcases p.patData with _ | (_ | dd) <;>
    dsimp only <;> try simp only [List.filter_nil]
  by_cases hdim : m.bounds.right - m.bounds.left ≤ 0 ∨
      m.bounds.bottom - m.bounds.top ≤ 0 ∨ m.pixelSize ≠ 8
  · simp only [if_pos hdim, List.filter_nil]
  simp only [if_neg hdim]
  rcases m.pmTable with _ | (_ | c) <;> dsimp only <;>
    try simp only [List.filter_nil]
  by_cases hclip :
      ((if rgn.rgnBBox.left < 0 then 0 else rgn.rgnBBox.left) <
        if scr.width < rgn.rgnBBox.right then scr.width else rgn.rgnBBox.right) ∧
      ((if rgn.rgnBBox.top < 0 then 0 else rgn.rgnBBox.top) <
        if scr.height < rgn.rgnBBox.bottom then scr.height else rgn.rgnBBox.bottom)
  · simp only [if_pos hclip]
    rw [filter_flatMap_distrib]
    apply congrArg
    funext yy
    rw [filter_map_eq_filterMap]
  · simp only [if_neg hclip, List.filter_nil]

theorem mem_renderRect_coords (scr : ScreenState) (r : Rect)
    (pp : Handle PixPatRec) (ls : LockStates) (w : Write)
    (hmem : w ∈ (renderPatternInRect scr r pp ls).1) :
    r.left ≤ w.x ∧ w.x < r.right ∧ 0 ≤ w.x ∧ w.x < scr.width ∧
    r.top ≤ w.y ∧ w.y < r.bottom ∧ 0 ≤ w.y ∧ w.y < scr.height := by
  rcases pp with _ | (_ | p)
  · simp [renderPatternInRect] at hmem
  · simp [renderPatternInRect] at hmem
  revert hmem
  unfold renderPatternInRect
  dsimp only
  by_cases hT : p.patType ≠ 1
  · rw [if_pos hT]
    intro hmem
    simp at hmem
  rw [if_neg hT]
  rcases p.patMap with _ | (_ | m) <;> rcases p.patData with _ | (_ | dd) <;>
    dsimp only <;>
    first
    | (intro hmem; exact absurd hmem (List.not_mem_nil w))
    | skip
  by_cases hdim : m.bounds.right - m.bounds.left ≤ 0 ∨
      m.bounds.bottom - m.bounds.top ≤ 0 ∨ m.pixelSize ≠ 8
  · rw [if_pos hdim]
    intro hmem
    simp at hmem
  rw [if_neg hdim]
  rcases m.pmTable with _ | (_ | c) <;> dsimp only <;>
    first
    | (intro hmem; exact absurd hmem (List.not_mem_nil w))
    | skip
  rw [if_lt_zero_eq_max, if_lt_zero_eq_max, if_lt_eq_min, if_lt_eq_min]
  split
  · intro hmem
    obtain ⟨y', hy', hmem2⟩ := List.mem_flatMap.mp hmem
    obtain ⟨x', hx', heq⟩ := List.mem_map.mp hmem2
    rw [mem_intRange] at hy' hx'
    subst heq
    dsimp only
    refine ⟨by omega, by omega, by omega, by omega, by omega, by omega, by omega, by omega⟩
  · intro hmem
    simp at hmem

theorem packColor_eq_sum (c : RGBColor) (hg : c.green < 65536)
    (hb : c.blue < 65536) :
    packColor c = (c.red >>> 8) * 65536 + (c.green >>> 8) * 256 + (c.blue >>> 8) := by
  unfold packColor
  have h2 : c.green >>> 8 < 256 := by
    rw [Nat.shiftRight_eq_div_pow]
    omega
  have h3 : c.blue >>> 8 < 256 := by
    rw [Nat.shiftRight_eq_div_pow]
    omega
  rw [Nat.shiftLeft_eq, Nat.shiftLeft_eq]
  have e1 : c.red >>> 8 * 2 ^ 16 ||| c.green >>> 8 * 2 ^ 8 =
      c.red >>> 8 * 2 ^ 16 + c.green >>> 8 * 2 ^ 8 := by
    rw [Nat.mul_comm (c.red >>> 8) (2 ^ 16)]
    rw [← Nat.mul_add_lt_is_or (by omega) (c.red >>> 8)]
  rw [e1]
  have e2 : c.red >>> 8 * 2 ^ 16 + c.green >>> 8 * 2 ^ 8 =
      2 ^ 8 * (c.red >>> 8 * 256 + c.green >>> 8) := by ring
  rw [e2, ← Nat.mul_add_lt_is_or (by omega) (c.red >>> 8 * 256 + c.green >>> 8)]
  ring

/-! ### Concrete fixtures used by witnesses and counterexamples -/

/-- All three resources unlocked, not purgeable. -/
def lsEx : LockStates := ⟨⟨false, false⟩, ⟨false, false⟩, ⟨false, false⟩⟩

/-- A palette whose every entry is pure red at full 16-bit intensity. -/
def ctabEx : CTabRec := ⟨fun _ => ⟨⟨65535, 0, 0⟩⟩⟩

/-- Bounds of a 1×1 tile. -/
def bndEx : Rect := ⟨0, 0, 1, 1⟩

/-- A valid 1×1, 8-bit, type-1 pattern over `ctabEx`. -/
def patEx : PixPatRec := ⟨1, some (some ⟨0, 1, bndEx, 8, some (some ctabEx)⟩), some (some (fun _ => 0))⟩

/-- A ready 20×20 screen cache. -/
def scrEx : ScreenState := ⟨0, 80, 20, 20, true⟩

/-- A 2×2 region that fills its whole bounding box. -/
def regEx : RegionRec := ⟨⟨0, 0, 2, 2⟩, fun _ _ => true, fun _ => false⟩

/-- A 32bpp 640×480 screen pixel map (row-stride flag bits set). -/
def screenPMEx : PixMapRec := ⟨4096, 0x8050, ⟨0, 0, 480, 640⟩, 32, none⟩

/-- A main device exposing `screenPMEx`. -/
def devEx : Handle GDRec := some (some ⟨some (some screenPMEx)⟩)

/-- The screen cache before any successful query. -/
def st0Ex : ScreenState := ⟨0, 0, 0, 0, false⟩

/-- If `EnsureScreenInfo` reports failure, it has left the cached globals
untouched (no negative caching). -/
theorem ensure_fail_eq (dev : Handle GDRec) (st : ScreenState)
    (hfail : (ensureScreenInfo dev st).1 = false) :
    ensureScreenInfo dev st = (false, st) := by
  revert hfail
  unfold ensureScreenInfo
  by_cases hr : st.ready
  · rw [if_pos hr]
    intro hfail
    exact absurd hfail (by simp)
  rw [if_neg hr]
  rcases dev with _ | (_ | gd)
  · intro _
    rfl
  · intro _
    rfl
  dsimp only
  rcases gd.gdPMap with _ | (_ | pm) <;> dsimp only <;> try (intro _; rfl)
  by_cases hps : pm.pixelSize ≠ 32
  · rw [if_pos hps]
    intro _
    rfl
  · rw [if_neg hps]
    intro hfail
    exact absurd hfail (by simp)

theorem renderRgn_locks (scr : ScreenState) (rgn : RegionRec)
    (pp : Handle PixPatRec) (ls : LockStates) :
    (renderPatternInRgn scr rgn pp ls).2 = ls := by
  rcases pp with _ | (_ | p)
  · rfl
  · rfl
  unfold renderPatternInRgn
  dsimp only
  by_cases hT : p.patType ≠ 1
  · rw [if_pos hT]
  rw [if_neg hT]
  rcases p.patMap with _ | (_ | m) <;> rcases p.patData with _ | (_ | dd) <;>
    dsimp only <;> try rfl
  split
  · rfl
  rcases m.pmTable with _ | (_ | c) <;> dsimp only <;> rfl

theorem renderRect_locks (scr : ScreenState) (r : Rect)
    (pp : Handle PixPatRec) (ls : LockStates) :
    (renderPatternInRect scr r pp ls).2 = ls := by
  rcases pp with _ | (_ | p)
  · rfl
  · rfl
  unfold renderPatternInRect
  dsimp only
  by_cases hT : p.patType ≠ 1
  · rw [if_pos hT]
  rw [if_neg hT]
  rcases p.patMap with _ | (_ | m) <;> rcases p.patData with _ | (_ | dd) <;>
    dsimp only <;> try rfl
  split
  · rfl
  rcases m.pmTable with _ | (_ | c) <;> dsimp only <;> rfl

/-- C3: on every call to either renderer, whatever the pattern and however
far validation gets, the lock/purgeable state of every touched resource on
return equals its state before the call. -/
theorem render_lock_symmetry (scr : ScreenState) (rgn : RegionRec) (r : Rect)
    (pp : Handle PixPatRec) (ls : LockStates) :
    (renderPatternInRgn scr rgn pp ls).2 = ls ∧
    (renderPatternInRect scr r pp ls).2 = ls :=
  ⟨renderRgn_locks scr rgn pp ls, renderRect_locks scr r pp ls⟩

/-- C5: a nested call to either patched primitive while the recursion flag is
set invokes only the saved original: no guard evaluation and no renderer
invocation appear in its trace. -/
theorem nested_call_original_only (env : HostEnv) (rgn : Handle RegionRec)
    (pp : Handle PixPatRec) (r : Option Rect) (ls : LockStates) :
    (patchedFillCRgn env true rgn pp ls).trace = [PEvent.callOriginal] ∧
    (patchedEraseRect env true r ls).trace = [PEvent.callOriginal] ∧
    PEvent.guardEval ∉ (patchedFillCRgn env true rgn pp ls).trace ∧
    PEvent.renderRgn ∉ (patchedFillCRgn env true rgn pp ls).trace ∧
    PEvent.guardEval ∉ (patchedEraseRect env true r ls).trace ∧
    PEvent.renderRect ∉ (patchedEraseRect env true r ls).trace := by
  refine ⟨rfl, rfl, ?_, ?_, ?_, ?_⟩ <;> simp [patchedFillCRgn, patchedEraseRect]

/-- C2: the packed 32bpp value keeps only the high byte of each 16-bit
channel: red in bits 23–16, green in bits 15–8, blue in bits 7–0, and no bit
above 23 is set. -/
theorem packColor_bits (c : RGBColor) (hr : c.red < 65536)
    (hg : c.green < 65536) (hb : c.blue < 65536) :
    packColor c < 2 ^ 24 ∧
    packColor c >>> 16 &&& 255 = c.red >>> 8 ∧
    packColor c >>> 8 &&& 255 = c.green >>> 8 ∧
    packColor c &&& 255 = c.blue >>> 8 := by
  have hsum := packColor_eq_sum c hg hb
  have h1 : c.red >>> 8 < 256 := by
    rw [Nat.shiftRight_eq_div_pow]
    omega
  have h2 : c.green >>> 8 < 256 := by
    rw [Nat.shiftRight_eq_div_pow]
    omega
  have h3 : c.blue >>> 8 < 256 := by
    rw [Nat.shiftRight_eq_div_pow]
    omega
  rw [hsum]
  have e255 : (255 : Nat) = 2 ^ 8 - 1 := rfl
  simp only [e255, Nat.and_pow_two_sub_one_eq_mod, Nat.shiftRight_eq_div_pow]
  refine ⟨by omega, by omega, by omega, by omega⟩

/-- Witness for C2 at the concrete palette entry (65535, 258, 3). -/
theorem packColor_bits_witness :
    packColor ⟨65535, 258, 3⟩ < 2 ^ 24 ∧
    (packColor ⟨65535, 258, 3⟩ >>> 16 &&& 255 = 255 ∧
     packColor ⟨65535, 258, 3⟩ >>> 8 &&& 255 = 1 ∧
     packColor ⟨65535, 258, 3⟩ &&& 255 = 0) := by
  have h := packColor_bits ⟨65535, 258, 3⟩ (by decide) (by decide) (by decide)
  exact ⟨h.1, h.2.1, h.2.2.1, h.2.2.2⟩

/-- C10: a valid type-1 pattern whose pixel-map bounds give a non-positive
tile width or height makes both renderers return with no writes and with the
two lock states taken so far restored (final states equal initial states). -/
theorem degenerate_tile_noop (scr : ScreenState) (rgn : RegionRec) (r : Rect)
    (ls : LockStates) (base : Int) (rb : Nat) (bnd : Rect) (ps : Int)
    (ct : Handle CTabRec) (d : Nat → Nat)
    (hdim : bnd.right - bnd.left ≤ 0 ∨ bnd.bottom - bnd.top ≤ 0) :
    renderPatternInRgn scr rgn (some (some ⟨1, some (some ⟨base, rb, bnd, ps, ct⟩), some (some d)⟩)) ls = ([], ls) ∧
    renderPatternInRect scr r (some (some ⟨1, some (some ⟨base, rb, bnd, ps, ct⟩), some (some d)⟩)) ls = ([], ls) := by
  constructor
  · unfold renderPatternInRgn
    dsimp only
    rw [if_neg (by norm_num), if_pos (by tauto)]
  · unfold renderPatternInRect
    dsimp only
    rw [if_neg (by norm_num), if_pos (by tauto)]

/-- Witness for C10: a 0×0 tile is rendered as a no-op by both renderers. -/
theorem degenerate_tile_noop_witness :
    renderPatternInRgn scrEx regEx (some (some ⟨1, some (some ⟨0, 1, ⟨0, 0, 0, 0⟩, 8, none⟩), some (some (fun _ => 0))⟩)) lsEx = ([], lsEx) ∧
    renderPatternInRect scrEx ⟨0, 0, 2, 2⟩ (some (some ⟨1, some (some ⟨0, 1, ⟨0, 0, 0, 0⟩, 8, none⟩), some (some (fun _ => 0))⟩)) lsEx = ([], lsEx) :=
  degenerate_tile_noop scrEx regEx ⟨0, 0, 2, 2⟩ lsEx 0 1 ⟨0, 0, 0, 0⟩ 8 none
    (fun _ => 0) (by decide)

/-- C8 (as stated): a ready cache answers `true` at once, for any device and
without touching the cached globals; the first successful query caches the
base address, the stride masked to its low 14 bits, and the width/height
derived from the device's pixel bounds, and sets readiness. -/
theorem screen_cache_spec (st : ScreenState) (base : Int) (rb : Nat)
    (bnd : Rect) (ct : Handle CTabRec) :
    (st.ready = true → ∀ dev2 : Handle GDRec, ensureScreenInfo dev2 st = (true, st)) ∧
    (st.ready = false →
      ensureScreenInfo (some (some ⟨some (some ⟨base, rb, bnd, 32, ct⟩)⟩)) st =
        (true, { base := base, rowBytes := rb &&& 0x3FFF,
                 width := bnd.right - bnd.left, height := bnd.bottom - bnd.top,
                 ready := true })) := by
  constructor
  · intro hr dev2
    unfold ensureScreenInfo
    rw [if_pos hr]
  · intro hr
    unfold ensureScreenInfo
    rw [if_neg (by simp [hr])]
    dsimp only
    rw [if_neg (by norm_num)]

/-- Witness for C8: a ready cache short-circuits; a fresh cache caches the
masked stride 0x8050 & 0x3FFF = 80 and the 640×480 bounds. -/
theorem screen_cache_spec_witness :
    ensureScreenInfo none scrEx = (true, scrEx) ∧
    ensureScreenInfo devEx st0Ex = (true, ⟨4096, 80, 640, 480, true⟩) :=
  ⟨(screen_cache_spec scrEx 0 0 ⟨0, 0, 0, 0⟩ none).1 rfl none,
   (screen_cache_spec st0Ex 4096 0x8050 ⟨0, 0, 480, 640⟩ none).2 rfl⟩

/-- C7 (amended): a failed capability query caches nothing: the globals are
left exactly as they were, so the next intercepted call re-queries the
device afresh. -/
theorem screen_query_no_negative_cache (dev : Handle GDRec) (st : ScreenState)
    (hfail : (ensureScreenInfo dev st).1 = false) :
    ensureScreenInfo dev st = (false, st) :=
  ensure_fail_eq dev st hfail

/-- Witness for C7's amendment: failing on an absent device leaves the cache
unchanged. -/
theorem screen_query_no_negative_cache_witness :
    ensureScreenInfo none st0Ex = (false, st0Ex) :=
  screen_query_no_negative_cache none st0Ex (by decide)

/-- A full 10×10 region sitting below a zero-height top strip. -/
def regBig : RegionRec := ⟨⟨5, 0, 15, 10⟩, fun _ _ => true, fun _ => false⟩

/-- Host environment with a cold screen cache but a valid 32bpp device;
drawing goes through the window-manager port; no windows are open. -/
def envGood : HostEnv :=
  { dev := devEx, screen := st0Ex, currentPort := 7, wmPortPtr := 7,
    wmBkPixPat := none, mbarHeight := 0, windows := [] }

/-- Counterexample to C7 as stated: after a query failure the fix is not
permanently disabled — the very next intercepted call re-queries the device,
succeeds, and repaints. -/
theorem screen_permanent_disable_cx :
    (ensureScreenInfo none st0Ex).1 = false ∧
    (ensureScreenInfo devEx (ensureScreenInfo none st0Ex).2).1 = true ∧
    PEvent.renderRgn ∈
      (patchedFillCRgn envGood false (some (some regBig)) (some (some patEx)) lsEx).trace := by
  refine ⟨by decide, by decide, by decide⟩

/-- C4 (amended): with a valid region/rect in hand and the recursion flag
clear, the renderer is invoked iff every guard condition holds; the rect form
additionally requires the window-manager port pointer to be non-null and to
expose a background pattern handle. -/
theorem repaint_guard_iff (env : HostEnv) (reg : RegionRec) (rect : Rect)
    (pp : Handle PixPatRec) (ls : LockStates) :
    (PEvent.renderRgn ∈ (patchedFillCRgn env false (some (some reg)) pp ls).trace ↔
      ((ensureScreenInfo env.dev env.screen).1 = true ∧
       env.currentPort = env.wmPortPtr ∧
       4 ≤ reg.rgnBBox.right - reg.rgnBBox.left ∧
       4 ≤ reg.rgnBBox.bottom - reg.rgnBBox.top ∧
       reg.rgnBBox.right - reg.rgnBBox.left ≤ 250 ∧
       reg.rgnBBox.bottom - reg.rgnBBox.top ≤ 250 ∧
       env.mbarHeight ≤ reg.rgnBBox.top ∧
       isRectInAnyWindowStruc reg.rgnBBox env.windows = false)) ∧
    (PEvent.renderRect ∈ (patchedEraseRect env false (some rect) ls).trace ↔
      ((ensureScreenInfo env.dev env.screen).1 = true ∧
       env.currentPort = env.wmPortPtr ∧
       2 ≤ rect.right - rect.left ∧ 2 ≤ rect.bottom - rect.top ∧
       rect.right - rect.left ≤ 250 ∧ rect.bottom - rect.top ≤ 250 ∧
       env.mbarHeight ≤ rect.top ∧
       isRectInAnyWindowStruc rect env.windows = false ∧
       env.wmPortPtr ≠ 0 ∧ env.wmBkPixPat.isSome = true)) := by
  have hbridge : isWMgrDraw env = true ↔ env.currentPort = env.wmPortPtr := by
    unfold isWMgrDraw
    exact beq_iff_eq
  constructor
  · unfold patchedFillCRgn
    rw [if_neg (by simp)]
    dsimp only
    split_ifs with hA hB
    · exact ⟨fun _ => by tauto, fun _ => by simp⟩
    · exact ⟨fun h => absurd h (by simp), fun hR => absurd (by tauto) hB⟩
    · exact ⟨fun h => absurd h (by simp), fun hR => absurd (by tauto) hA⟩
  · unfold patchedEraseRect
    rw [if_neg (by simp)]
    dsimp only
    split_ifs with hA hB hC
    · exact ⟨fun _ => by tauto, fun _ => by simp⟩
    · exact ⟨fun h => absurd h (by simp), fun hR => absurd (by tauto) hC⟩
    · exact ⟨fun h => absurd h (by simp), fun hR => absurd (by tauto) hB⟩
    · exact ⟨fun h => absurd h (by simp), fun hR => absurd (by tauto) hA⟩

/-- Guard-passing environment for the rect form whose window-manager port has
a NULL background-pattern handle. -/
def envCx : HostEnv :=
  { dev := none, screen := scrEx, currentPort := 1, wmPortPtr := 1,
    wmBkPixPat := none, mbarHeight := 0, windows := [] }

/-- A 10×10 rect below the top strip. -/
def rectCx : Rect := ⟨5, 0, 15, 10⟩

/-- Counterexample to C4 as stated: all enumerated guard conditions hold,
yet the rect-form call does not invoke the renderer, because the
window-manager port's background pattern handle is NULL. -/
theorem repaint_guard_cx :
    ((ensureScreenInfo envCx.dev envCx.screen).1 = true ∧
     envCx.currentPort = envCx.wmPortPtr ∧
     2 ≤ rectCx.right - rectCx.left ∧ 2 ≤ rectCx.bottom - rectCx.top ∧
     rectCx.right - rectCx.left ≤ 250 ∧ rectCx.bottom - rectCx.top ≤ 250 ∧
     envCx.mbarHeight ≤ rectCx.top ∧
     isRectInAnyWindowStruc rectCx envCx.windows = false) ∧
    PEvent.renderRect ∉ (patchedEraseRect envCx false (some rectCx) lsEx).trace := by
  refine ⟨by decide, by decide⟩

/-- C1: any pixel either renderer writes at surface coordinate (x, y) takes
its color from tile row `y mod H` and column `x mod W` under non-negative
(Euclidean) modulo — toroidal tiling anchored at the surface origin,
independent of where the target area begins. -/
theorem tiling_mod_spec (scr : ScreenState) (rgn : RegionRec) (r : Rect)
    (ls : LockStates) (base : Int) (rb : Nat) (bnd : Rect) (c : CTabRec)
    (d : Nat → Nat) (x y : Int) (v : Nat)
    (hW : 0 < bnd.right - bnd.left) (hH : 0 < bnd.bottom - bnd.top) :
    ((⟨x, y, v⟩ : Write) ∈ (renderPatternInRgn scr rgn
        (some (some ⟨1, some (some ⟨base, rb, bnd, 8, some (some c)⟩), some (some d)⟩)) ls).1 →
      v = packColor (c.ctTable (d ((y % (bnd.bottom - bnd.top)) *
            ((rb &&& 0x3FFF : Nat) : Int) + x % (bnd.right - bnd.left)).toNat)).rgb) ∧
    ((⟨x, y, v⟩ : Write) ∈ (renderPatternInRect scr r
        (some (some ⟨1, some (some ⟨base, rb, bnd, 8, some (some c)⟩), some (some d)⟩)) ls).1 →
      v = packColor (c.ctTable (d ((y % (bnd.bottom - bnd.top)) *
            ((rb &&& 0x3FFF : Nat) : Int) + x % (bnd.right - bnd.left)).toNat)).rgb) := by
  constructor
  · intro hmem
    rw [renderRgn_eq_filter] at hmem
    have h2 := (List.mem_filter.mp hmem).1
    exact ((mem_renderRect_iff scr rgn.rgnBBox ls base rb bnd c d hW hH x y v).mp h2).2.2.2.2.2.2.2.2
  · intro hmem
    exact ((mem_renderRect_iff scr r ls base rb bnd c d hW hH x y v).mp hmem).2.2.2.2.2.2.2.2

/-- Witness for C1 at pixel (0,0) of a 1×1 red tile inside a 2×2 region. -/
theorem tiling_mod_spec_witness :
    (16711680 : Nat) = packColor (ctabEx.ctTable ((fun _ => (0 : Nat))
      ((((0 : Int) % (bndEx.bottom - bndEx.top)) * ((1 &&& 0x3FFF : Nat) : Int)
        + (0 : Int) % (bndEx.right - bndEx.left)).toNat))).rgb :=
  (tiling_mod_spec scrEx regEx ⟨0, 0, 2, 2⟩ lsEx 0 1 bndEx ctabEx (fun _ => 0)
    0 0 16711680 (by decide) (by decide)).1 (by decide)

/-- C6 (amended): the region form writes exactly the rect-form writes over
the region's bounding box restricted by the point-membership test — a
subset, though not in general a strict one. -/
theorem region_writes_filter (scr : ScreenState) (rgn : RegionRec)
    (pp : Handle PixPatRec) (ls : LockStates) :
    (renderPatternInRgn scr rgn pp ls).1 =
      ((renderPatternInRect scr rgn.rgnBBox pp ls).1).filter
        (fun w => rgn.ptIn w.x w.y) ∧
    (renderPatternInRgn scr rgn pp ls).1 ⊆
      (renderPatternInRect scr rgn.rgnBBox pp ls).1 := by
  refine ⟨renderRgn_eq_filter scr rgn pp ls, ?_⟩
  rw [renderRgn_eq_filter scr rgn pp ls]
  exact List.filter_subset' _

/-- Counterexample to C6's strictness: a region that fills its whole bounding
box yields exactly the rect-form writes (equal, non-empty sets). -/
theorem region_strict_subset_cx :
    (renderPatternInRgn scrEx regEx (some (some patEx)) lsEx).1 =
      (renderPatternInRect scrEx regEx.rgnBBox (some (some patEx)) lsEx).1 ∧
    (renderPatternInRect scrEx regEx.rgnBBox (some (some patEx)) lsEx).1 ≠ [] := by
  refine ⟨by decide, by decide⟩

/-- C9: every pixel either renderer writes lies inside the target area's
bounding box intersected with the screen bounds (clamped clipping, never
wrapped); for a well-formed pattern the rect form covers that intersection
exactly. -/
theorem clip_bounds_spec (scr : ScreenState) (rgn : RegionRec) (r : Rect)
    (pp : Handle PixPatRec) (ls : LockStates) (w : Write)
    (base : Int) (rb : Nat) (bnd : Rect) (c : CTabRec) (d : Nat → Nat)
    (x y : Int)
    (hW : 0 < bnd.right - bnd.left) (hH : 0 < bnd.bottom - bnd.top) :
    (w ∈ (renderPatternInRgn scr rgn pp ls).1 →
      rgn.rgnBBox.left ≤ w.x ∧ w.x < rgn.rgnBBox.right ∧ 0 ≤ w.x ∧ w.x < scr.width ∧
      rgn.rgnBBox.top ≤ w.y ∧ w.y < rgn.rgnBBox.bottom ∧ 0 ≤ w.y ∧ w.y < scr.height) ∧
    (w ∈ (renderPatternInRect scr r pp ls).1 →
      r.left ≤ w.x ∧ w.x < r.right ∧ 0 ≤ w.x ∧ w.x < scr.width ∧
      r.top ≤ w.y ∧ w.y < r.bottom ∧ 0 ≤ w.y ∧ w.y < scr.height) ∧
    ((∃ v : Nat, (⟨x, y, v⟩ : Write) ∈ (renderPatternInRect scr r
        (some (some ⟨1, some (some ⟨base, rb, bnd, 8, some (some c)⟩), some (some d)⟩)) ls).1) ↔
      (r.left ≤ x ∧ x < r.right ∧ 0 ≤ x ∧ x < scr.width ∧
       r.top ≤ y ∧ y < r.bottom ∧ 0 ≤ y ∧ y < scr.height)) := by
  refine ⟨?_, ?_, ?_⟩
  · intro hmem
    rw [renderRgn_eq_filter] at hmem
    exact mem_renderRect_coords scr rgn.rgnBBox pp ls w (List.mem_filter.mp hmem).1
  · exact mem_renderRect_coords scr r pp ls w
  · constructor
    · rintro ⟨v, hv⟩
      have h := (mem_renderRect_iff scr r ls base rb bnd c d hW hH x y v).mp hv
      exact ⟨h.1, h.2.1, h.2.2.1, h.2.2.2.1, h.2.2.2.2.1, h.2.2.2.2.2.1,
        h.2.2.2.2.2.2.1, h.2.2.2.2.2.2.2.1⟩
    · intro hc
      refine ⟨packColor (c.ctTable (d ((y % (bnd.bottom - bnd.top)) *
        ((rb &&& 0x3FFF : Nat) : Int) + x % (bnd.right - bnd.left)).toNat)).rgb, ?_⟩
      exact (mem_renderRect_iff scr r ls base rb bnd c d hW hH x y _).mpr
        ⟨hc.1, hc.2.1, hc.2.2.1, hc.2.2.2.1, hc.2.2.2.2.1, hc.2.2.2.2.2.1,
         hc.2.2.2.2.2.2.1, hc.2.2.2.2.2.2.2, rfl⟩

/-- Witness for C9: pixel (0,0) of the clipped 2×2 box is written. -/
theorem clip_bounds_spec_witness :
    ∃ v : Nat, (⟨0, 0, v⟩ : Write) ∈ (renderPatternInRect scrEx ⟨0, 0, 2, 2⟩
      (some (some ⟨1, some (some ⟨0, 1, bndEx, 8, some (some ctabEx)⟩),
        some (some (fun _ => 0))⟩)) lsEx).1 :=
  ((clip_bounds_spec scrEx regEx ⟨0, 0, 2, 2⟩ (some (some patEx)) lsEx ⟨0, 0, 0⟩
    0 1 bndEx ctabEx (fun _ => 0) 0 0 (by decide) (by decide)).2.2).mpr (by decide)

end DesktopFix
